import Mathlib

/-!
Shallow embedding of vnpy/trader/app/algoTrading/algoEngine.py (class AlgoEngine
and AlgoRpcServer), the dispatch core of the algorithmic-order execution engine.

Python dictionaries are embedded as association lists with unique keys,
with insert-replaces-in-place semantics matching the insertion-order
behaviour of Python 3.7+ dicts.  Side effects (calls into the main engine,
event-bus puts, log output, file writes, database operations and calls into
algorithm instances) are recorded as an explicit effect trace.  Python
exceptions are modelled with an Except result component; effects emitted
before an exception propagates are kept in the trace, as in Python.

The file Algo_setting.json is modelled as an optional list of setting
objects held in the engine state: json.dumps / json.load on a list of
string-keyed, string-valued objects is a faithful round trip, so the
JSON encoding itself is abstracted away.
-/

namespace AlgoTrading

/-- A Python string-keyed object (a JSON-style dict with string values). -/
abbrev PyDict := List (String × String)

/-- Python dict lookup: d.get(k) / d[k] success case.  Returns the value at
the first occurrence of the key. -/
def dictGet {α : Type} (k : String) : List (String × α) → Option α
  | [] => none
  | (k', v') :: rest => if k = k' then some v' else dictGet k rest

/-- Python dict assignment d[k] = v: replaces the value in place if the key
is present (keeping its position, as Python 3.7+ dicts do), otherwise
appends the new binding at the end. -/
def dictInsert {α : Type} (k : String) (v : α) : List (String × α) → List (String × α)
  | [] => [(k, v)]
  | (k', v') :: rest => if k = k' then (k, v) :: rest else (k', v') :: dictInsert k v rest

/-- Python del d[k]: removes the first binding of the key. -/
def dictErase {α : Type} (k : String) : List (String × α) → List (String × α)
  | [] => []
  | (k', v') :: rest => if k = k' then rest else (k', v') :: dictErase k rest

/-- Python set.add on a set embedded as a duplicate-free list. -/
def setAdd {α : Type} [DecidableEq α] (x : α) (s : List α) : List α :=
  if x ∈ s then s else s ++ [x]

/-- An algorithm instance (external capability): Python object identity is
modelled by objId, and the readable algoName is the name the instance was
created under. -/
structure AlgoInstance where
  objId : Nat
  algoName : String
deriving DecidableEq, Repr

/-- Contract data returned by mainEngine.getContract. -/
structure VtContract where
  symbol : String
  exchange : String
  gatewayName : String
deriving DecidableEq, Repr

/-- Tick data: only the routing key vtSymbol matters for dispatch. -/
structure TickData where
  vtSymbol : String
deriving DecidableEq, Repr

/-- Order data: only the routing key vtOrderID matters for dispatch. -/
structure OrderData where
  vtOrderID : String
deriving DecidableEq, Repr

/-- Trade data: only the routing key vtOrderID matters for dispatch. -/
structure TradeData where
  vtOrderID : String
deriving DecidableEq, Repr

/-- The order request built by sendOrder (VtOrderReq). -/
structure VtOrderReq where
  vtSymbol : String
  symbol : String
  exchange : String
  direction : String
  offset : String
  price : Int
  volume : Int
  priceType : String
deriving DecidableEq, Repr

/-- Modelled from the spec: the constants module vnpy.trader.vtConstant is
not under src; per the spec the direction/price-type/offset markers are
opaque distinct tokens, so they are embedded as distinct strings. -/
def DIRECTION_LONG : String := "DIRECTION_LONG"

def DIRECTION_SHORT : String := "DIRECTION_SHORT"

def PRICETYPE_LIMITPRICE : String := "PRICETYPE_LIMITPRICE"

def OFFSET_OPEN : String := "OFFSET_OPEN"

def OFFSET_CLOSETODAY : String := "OFFSET_CLOSETODAY"

def EVENT_ALGO_LOG : String := "eAlgoLog"

def EVENT_ALGO_PARAM : String := "eAlgoParam"

def EVENT_ALGO_VAR : String := "eAlgoVar"

def EVENT_ALGO_SETTING : String := "eAlgoSetting"

def ALGOTRADING_DB_NAME : String := "VnTrader_AlgoTrading_Db"

def SETTING_COLLECTION_NAME : String := "AlgoSetting"

/-- Python exceptions that the embedded operations can raise. -/
inductive PyErr where
  | keyError (key : String)
  | attributeError (msg : String)
  | runtimeError (msg : String)
deriving DecidableEq, Repr

/-- One observable side effect of an engine operation: a call into an
algorithm instance, into the main engine, onto the event bus, or onto a
persistence backend. -/
inductive Effect where
  | updateTick (algo : AlgoInstance) (tick : TickData)
  | updateOrder (algo : AlgoInstance) (order : OrderData)
  | updateTrade (algo : AlgoInstance) (trade : TradeData)
  | updateTimer (algo : AlgoInstance)
  | stopAlgoHook (algo : AlgoInstance)
  | mainSubscribe (symbol exchange gatewayName : String)
  | mainSendOrder (req : VtOrderReq) (gatewayName : String)
  | writeLog (content : String)
  | putEvent (eventType : String) (data : PyDict)
  | fileWrite (contents : List PyDict)
  | dbDelete (db collection settingName : String)
  | rpcServerStart (repPort pubPort : Nat)
deriving DecidableEq, Repr

/-- The pure inputs the engine reads from its mainEngine collaborator:
contract lookup, and the order id that mainEngine.sendOrder assigns to a
submitted request. -/
structure MainEngine where
  getContract : String → Option VtContract
  sendOrderId : VtOrderReq → String → String

/-- The mutable state of AlgoEngine: the three routing indices, the setting
map, the RPC server slot, the persistence-backend flag, the setting file
contents, and a counter feeding the spec-modelled instance factory. -/
structure EngineState where
  algoDict : List (String × AlgoInstance)
  orderAlgoDict : List (String × AlgoInstance)
  symbolAlgoDict : List (String × List AlgoInstance)
  settingDict : List (String × PyDict)
  rpcServer : Option (Nat × Nat)
  useMongodb : Bool
  settingFile : Option (List PyDict)
  algoCount : Nat
deriving DecidableEq, Repr

/-- Modelled from the spec: the fixed registration table ALGO_DICT lives in
the algo subpackage, which is not under src; per the spec it maps a fixed
finite set of template names (TWAP/Iceberg-style templates) to their
constructors. -/
def ALGO_DICT : List String := ["Twap", "Iceberg"]

/-- Modelled from the spec: the template class factory new(engine, setting)
is not under src; per the spec it yields an instance with a readable,
previously-unused algoName.  Freshness comes from the engine-level counter
algoCount of the model. -/
def algoClassNew (templateName : String) (count : Nat) : AlgoInstance :=
  { objId := count, algoName := templateName ++ "_" ++ toString count }

/-- AlgoEngine.processTickEvent: look up the subscriber set of the tick's
vtSymbol; if the entry is present and non-empty (Python truthiness of the
set), call updateTick on every member. -/
def processTickEvent (st : EngineState) (tick : TickData) : EngineState × List Effect :=
  match dictGet tick.vtSymbol st.symbolAlgoDict with
  | none => (st, [])
  | some l => if l.isEmpty then (st, []) else (st, l.map fun a => Effect.updateTick a tick)

/-- AlgoEngine.processOrderEvent: look up the owning instance of the
order's vtOrderID; deliver updateOrder only if found, drop otherwise. -/
def processOrderEvent (st : EngineState) (order : OrderData) : EngineState × List Effect :=
  match dictGet order.vtOrderID st.orderAlgoDict with
  | none => (st, [])
  | some algo => (st, [Effect.updateOrder algo order])

/-- AlgoEngine.processTradeEvent: look up the owning instance of the
trade's vtOrderID; deliver updateTrade only if found, drop otherwise. -/
def processTradeEvent (st : EngineState) (trade : TradeData) : EngineState × List Effect :=
  match dictGet trade.vtOrderID st.orderAlgoDict with
  | none => (st, [])
  | some algo => (st, [Effect.updateTrade algo trade])

/-- AlgoEngine.processTimerEvent: broadcast updateTimer to every active
instance (iteration over algoDict.values()). -/
def processTimerEvent (st : EngineState) : EngineState × List Effect :=
  (st, st.algoDict.map fun p => Effect.updateTimer p.2)

/-- AlgoEngine.addAlgo: read templateName from the setting (KeyError if
absent), resolve it in ALGO_DICT (KeyError if unregistered), construct the
instance, insert it into algoDict under its algoName, return the name. -/
def addAlgo (st : EngineState) (algoSetting : PyDict) :
    EngineState × List Effect × Except PyErr String :=
  match dictGet "templateName" algoSetting with
  | none => (st, [], Except.error (PyErr.keyError "templateName"))
  | some templateName =>
    if templateName ∈ ALGO_DICT then
      let algo := algoClassNew templateName st.algoCount
      ({ st with algoDict := dictInsert algo.algoName algo st.algoDict,
                 algoCount := st.algoCount + 1 },
       [], Except.ok algo.algoName)
    else
      (st, [], Except.error (PyErr.keyError templateName))

/-- AlgoEngine.stopAlgo: if the name is active, call the instance's stop
hook and delete the name from algoDict; otherwise do nothing. -/
def stopAlgo (st : EngineState) (algoName : String) : EngineState × List Effect :=
  match dictGet algoName st.algoDict with
  | none => (st, [])
  | some algo =>
      ({ st with algoDict := dictErase algoName st.algoDict }, [Effect.stopAlgoHook algo])

/-- The loop of AlgoEngine.stopAll, iterating over the live keys view of
algoDict as Python 3 does: each advance of the dict iterator first checks
that the dict still has the size it had when the iterator was created, and
raises RuntimeError if not (CPython dictiter semantics); otherwise it
yields the next key and the body runs stopAlgo on it. -/
def stopAllGo (n0 : Nat) : List String → EngineState → List Effect →
    EngineState × List Effect × Except PyErr Unit
  | [], st, effs =>
      if st.algoDict.length ≠ n0 then
        (st, effs, Except.error (PyErr.runtimeError "dictionary changed size during iteration"))
      else (st, effs, Except.ok ())
  | k :: rest, st, effs =>
      if st.algoDict.length ≠ n0 then
        (st, effs, Except.error (PyErr.runtimeError "dictionary changed size during iteration"))
      else
        let p := stopAlgo st k
        stopAllGo n0 rest p.1 (effs ++ p.2)

/-- AlgoEngine.stopAll: l = algoDict.keys() is a live view, not a snapshot,
under Python 3; the for loop then calls stopAlgo on each yielded name. -/
def stopAll (st : EngineState) : EngineState × List Effect × Except PyErr Unit :=
  stopAllGo st.algoDict.length (st.algoDict.map Prod.fst) st []

/-- AlgoEngine.subscribe: resolve the contract (log and return if missing);
if the symbol already has a subscriber set, just add the instance;
otherwise create the set, add the instance, and issue one upstream
subscription request via mainEngine.subscribe. -/
def subscribe (env : MainEngine) (st : EngineState) (algo : AlgoInstance) (vtSymbol : String) :
    EngineState × List Effect :=
  match env.getContract vtSymbol with
  | none =>
      (st, [Effect.writeLog (algo.algoName ++ "订阅行情失败，找不到合约" ++ vtSymbol)])
  | some contract =>
      match dictGet vtSymbol st.symbolAlgoDict with
      | some s =>
          ({ st with symbolAlgoDict := dictInsert vtSymbol (setAdd algo s) st.symbolAlgoDict },
           [])
      | none =>
          ({ st with symbolAlgoDict := dictInsert vtSymbol (setAdd algo []) st.symbolAlgoDict },
           [Effect.mainSubscribe contract.symbol contract.exchange contract.gatewayName])

/-- Python truthiness of an optional string argument: an omitted argument
or an empty string falls back to the default (if priceType: / if offset:). -/
def strArgOrDefault (arg : Option String) (dflt : String) : String :=
  match arg with
  | none => dflt
  | some s => if s = "" then dflt else s

/-- AlgoEngine.sendOrder: resolve the contract and log on failure WITHOUT
returning (the source has no return in that branch, unlike subscribe and
cancelOrder); the subsequent attribute access contract.symbol on None then
raises AttributeError before any submission.  On the contract-found path:
build the VtOrderReq (offset is first set to OFFSET_CLOSETODAY and then
overwritten by the offset argument or OFFSET_OPEN; priceType defaults to
PRICETYPE_LIMITPRICE), submit via mainEngine.sendOrder, record the
returned vtOrderID as owned by the instance, and return it. -/
def sendOrder (env : MainEngine) (st : EngineState) (algo : AlgoInstance)
    (vtSymbol direction : String) (price volume : Int)
    (priceType offset : Option String) :
    EngineState × List Effect × Except PyErr String :=
  match env.getContract vtSymbol with
  | none =>
      (st, [Effect.writeLog (algo.algoName ++ "委托下单失败，找不到合约：" ++ vtSymbol)],
       Except.error (PyErr.attributeError "NoneType object has no attribute symbol"))
  | some contract =>
      let req : VtOrderReq :=
        { vtSymbol := vtSymbol
          symbol := contract.symbol
          exchange := contract.exchange
          direction := direction
          offset := strArgOrDefault offset OFFSET_OPEN
          price := price
          volume := volume
          priceType := strArgOrDefault priceType PRICETYPE_LIMITPRICE }
      let vtOrderID := env.sendOrderId req contract.gatewayName
      ({ st with orderAlgoDict := dictInsert vtOrderID algo st.orderAlgoDict },
       [Effect.mainSendOrder req contract.gatewayName],
       Except.ok vtOrderID)

/-- AlgoEngine.putSettingEvent: sets data[settingName] on the (shared)
setting object, then puts an EVENT_ALGO_SETTING event carrying it; returns
the mutated object together with the event effect, so callers can model
the aliasing of the stored object. -/
def putSettingEvent (settingName : String) (algoSetting : PyDict) : PyDict × Effect :=
  let d := dictInsert "settingName" settingName algoSetting
  (d, Effect.putEvent EVENT_ALGO_SETTING d)

/-- AlgoEngine.saveAlgoSettingToFile: serialize the list of values of
settingDict and write it to the setting file (whole-collection rewrite;
the write itself is modelled as always succeeding, so the except branch
that logs a write failure is unreachable in the model). -/
def saveAlgoSettingToFile (st : EngineState) : EngineState × List Effect :=
  let l := st.settingDict.map Prod.snd
  ({ st with settingFile := some l }, [Effect.fileWrite l])

/-- The loop body of AlgoEngine.loadAlgoSettingFromFile over the decoded
list: for each setting, read settingName (a missing key raises KeyError,
caught by the surrounding except, so the Bool result records whether the
loop completed), store the setting in settingDict, and publish a setting
event (whose settingName assignment mutates the stored object, hence the
stored value is the putSettingEvent result). -/
def loadSettings : List PyDict → List (String × PyDict) →
    List (String × PyDict) × List Effect × Bool
  | [], m => (m, [], true)
  | s :: rest, m =>
      match dictGet "settingName" s with
      | none => (m, [], false)
      | some settingName =>
          let pe := putSettingEvent settingName s
          let q := loadSettings rest (dictInsert settingName pe.1 m)
          (q.1, pe.2 :: q.2.1, q.2.2)

/-- AlgoEngine.loadAlgoSettingFromFile: if the file is absent, log and
return; otherwise decode the list and run the loading loop; a decoding or
key error is caught and logged by writeError (modelled as a log effect);
in every file-present case the trailing success log is emitted. -/
def loadAlgoSettingFromFile (st : EngineState) : EngineState × List Effect :=
  match st.settingFile with
  | none => (st, [Effect.writeLog "算法配置文件不存在"])
  | some l =>
      let q := loadSettings l st.settingDict
      ({ st with settingDict := q.1 },
       q.2.1 ++ (if q.2.2 then [] else [Effect.writeLog "加载算法配置异常"])
             ++ [Effect.writeLog "加载算法配置成功"])

/-- AlgoEngine.deleteAlgoSetting: read settingName from the argument
(KeyError if absent), delete it from settingDict (del raises KeyError if
the name is not present, before any backend or event work), then persist
the removal through the active backend (full file rewrite, or a
document-store delete keyed by settingName), and finally publish a setting
event whose payload is an empty dict. -/
def deleteAlgoSetting (st : EngineState) (algoSetting : PyDict) :
    EngineState × List Effect × Except PyErr Unit :=
  match dictGet "settingName" algoSetting with
  | none => (st, [], Except.error (PyErr.keyError "settingName"))
  | some settingName =>
      match dictGet settingName st.settingDict with
      | none => (st, [], Except.error (PyErr.keyError settingName))
      | some _ =>
          let st1 := { st with settingDict := dictErase settingName st.settingDict }
          let backend :=
            if st.useMongodb then
              (st1, [Effect.dbDelete ALGOTRADING_DB_NAME SETTING_COLLECTION_NAME settingName])
            else saveAlgoSettingToFile st1
          let pe := putSettingEvent settingName []
          (backend.1, backend.2 ++ [pe.2], Except.ok ())

/-- AlgoEngine.startRpc: return immediately if an RPC server already
exists; otherwise create the AlgoRpcServer, start it, and log. -/
def startRpc (st : EngineState) (repPort pubPort : Nat) : EngineState × List Effect :=
  match st.rpcServer with
  | some _ => (st, [])
  | none =>
      ({ st with rpcServer := some (repPort, pubPort) },
       [Effect.rpcServerStart repPort pubPort,
        Effect.writeLog ("算法交易RPC服务启动成功，REP端口:" ++ toString repPort ++
                         "，PUB端口:" ++ toString pubPort)])

/-- Sequential application of startRpc over a list of port pairs,
accumulating the effect trace. -/
def runStartRpcSeq : List (Nat × Nat) → EngineState → EngineState × List Effect
  | [], st => (st, [])
  | c :: rest, st =>
      let q := startRpc st c.1 c.2
      let q' := runStartRpcSeq rest q.1
      (q'.1, q.2 ++ q'.2)

/-- Number of rpcServerStart effects in a trace. -/
def countServerStarts (effs : List Effect) : Nat :=
  (effs.filter fun e =>
    match e with
    | Effect.rpcServerStart _ _ => true
    | _ => false).length

/-! Lemmas about the dict embedding. -/

theorem dictGet_insert {α : Type} (k : String) (v : α) (d : List (String × α)) :
    dictGet k (dictInsert k v d) = some v := by
  induction d with
  | nil => simp [dictGet, dictInsert]
  | cons p rest ih =>
      by_cases h : k = p.1
      · simp [dictGet, dictInsert, h]
      · simp [dictGet, dictInsert, h, ih]

theorem dictInsert_of_get_eq {α : Type} {k : String} {v : α} {d : List (String × α)}
    (h : dictGet k d = some v) : dictInsert k v d = d := by
  induction d with
  | nil => simp [dictGet] at h
  | cons p rest ih =>
      obtain ⟨k', v'⟩ := p
      by_cases hk : k = k'
      · simp [dictGet, hk] at h
        subst hk
        subst h
        simp [dictInsert]
      · simp [dictGet, hk] at h
        simp [dictInsert, hk, ih h]

theorem mem_of_dictGet {α : Type} {k : String} {v : α} {d : List (String × α)}
    (h : dictGet k d = some v) : (k, v) ∈ d := by
  induction d with
  | nil => simp [dictGet] at h
  | cons p rest ih =>
      obtain ⟨k', v'⟩ := p
      by_cases hk : k = k'
      · simp [dictGet, hk] at h
        subst hk
        subst h
        exact List.mem_cons_self _ _
      · simp [dictGet, hk] at h
        exact List.mem_cons_of_mem _ (ih h)

theorem dictGet_of_mem_nodup {α : Type} {k : String} {v : α} {d : List (String × α)}
    (hnd : (d.map Prod.fst).Nodup) (h : (k, v) ∈ d) : dictGet k d = some v := by
  induction d with
  | nil => simp at h
  | cons p rest ih =>
      obtain ⟨k', v'⟩ := p
      simp only [List.map_cons, List.nodup_cons] at hnd
      rw [List.mem_cons] at h
      rcases h with h | h
      · rw [Prod.mk.injEq] at h
        simp [dictGet, h.1, h.2]
      · have hk : k ≠ k' := by
          intro hkk
          subst hkk
          exact hnd.1 (List.mem_map_of_mem Prod.fst h)
        simp [dictGet, hk, ih hnd.2 h]

theorem dictGet_erase_self {α : Type} {k : String} {d : List (String × α)}
    (hnd : (d.map Prod.fst).Nodup) : dictGet k (dictErase k d) = none := by
  induction d with
  | nil => simp [dictErase, dictGet]
  | cons p rest ih =>
      obtain ⟨k', v'⟩ := p
      simp only [List.map_cons, List.nodup_cons] at hnd
      by_cases hk : k = k'
      · simp only [dictErase, if_pos hk]
        cases hget : dictGet k rest with
        | none => rfl
        | some w =>
            subst hk
            exact absurd (List.mem_map_of_mem Prod.fst (mem_of_dictGet hget)) hnd.1
      · simp [dictErase, dictGet, hk, ih hnd.2]

theorem mem_of_mem_dictErase {α : Type} {k : String} {p : String × α}
    {d : List (String × α)} (h : p ∈ dictErase k d) : p ∈ d := by
  induction d with
  | nil => simp [dictErase] at h
  | cons q rest ih =>
      by_cases hk : k = q.1
      · simp only [dictErase, if_pos hk] at h
        exact List.mem_cons_of_mem q h
      · simp only [dictErase, if_neg hk, List.mem_cons] at h
        rcases h with h | h
        · exact h ▸ List.mem_cons_self q rest
        · exact List.mem_cons_of_mem q (ih h)

theorem fst_ne_of_mem_dictErase {α : Type} {k : String} {p : String × α}
    {d : List (String × α)} (hnd : (d.map Prod.fst).Nodup)
    (h : p ∈ dictErase k d) : p.1 ≠ k := by
  induction d with
  | nil => simp [dictErase] at h
  | cons q rest ih =>
      simp only [List.map_cons, List.nodup_cons] at hnd
      by_cases hk : k = q.1
      · simp only [dictErase, if_pos hk] at h
        intro hpk
        subst hk
        rw [← hpk] at hnd
        exact hnd.1 (List.mem_map_of_mem Prod.fst h)
      · simp only [dictErase, if_neg hk, List.mem_cons] at h
        rcases h with h | h
        · subst h
          exact fun hpk => hk hpk.symm
        · exact ih hnd.2 h

/-! Concrete fixtures used by witnesses and counterexamples. -/

/-- A concrete algorithm instance. -/
def algoA : AlgoInstance := { objId := 0, algoName := "Twap_0" }

/-- A second, distinct concrete algorithm instance. -/
def algoB : AlgoInstance := { objId := 1, algoName := "Twap_1" }

/-- A freshly constructed engine (file backend, nothing active). -/
def freshState : EngineState :=
  { algoDict := [], orderAlgoDict := [], symbolAlgoDict := [], settingDict := [],
    rpcServer := none, useMongodb := false, settingFile := none, algoCount := 0 }

/-- An engine state with two active algorithm instances. -/
def twoAlgoState : EngineState :=
  { freshState with algoDict := [("Twap_0", algoA), ("Twap_1", algoB)] }

/-- A concrete contract table: the symbol rb8888 is known, others are not. -/
def demoMain : MainEngine :=
  { getContract := fun s =>
      if s = "rb8888" then
        some { symbol := "rb8888", exchange := "SHFE", gatewayName := "CTP" }
      else none
    sendOrderId := fun _ _ => "CTP.42" }

/-! Helper lemmas shared by several claims. -/

theorem stopAlgo_absent {st : EngineState} {name : String}
    (h : dictGet name st.algoDict = none) : stopAlgo st name = (st, []) := by
  unfold stopAlgo
  rw [h]

theorem stopAlgo_present {st : EngineState} {name : String} {algo : AlgoInstance}
    (h : dictGet name st.algoDict = some algo) :
    stopAlgo st name =
      ({ st with algoDict := dictErase name st.algoDict }, [Effect.stopAlgoHook algo]) := by
  unfold stopAlgo
  rw [h]

theorem startRpc_when_some {st : EngineState} {s : Nat × Nat} (r p : Nat)
    (h : st.rpcServer = some s) : startRpc st r p = (st, []) := by
  unfold startRpc
  rw [h]

theorem runStartRpcSeq_when_some {s : Nat × Nat} (l : List (Nat × Nat)) (st : EngineState)
    (h : st.rpcServer = some s) : runStartRpcSeq l st = (st, []) := by
  induction l with
  | nil => rfl
  | cons c rest ih =>
      simp [runStartRpcSeq, startRpc_when_some c.1 c.2 h, ih]

theorem countServerStarts_writeLog (s : String) (rest : List Effect) :
    countServerStarts (Effect.writeLog s :: rest) = countServerStarts rest := by
  simp [countServerStarts]

theorem countServerStarts_start (r p : Nat) (rest : List Effect) :
    countServerStarts (Effect.rpcServerStart r p :: rest) = countServerStarts rest + 1 := by
  simp [countServerStarts, List.filter]

theorem countServerStarts_append (a b : List Effect) :
    countServerStarts (a ++ b) = countServerStarts a + countServerStarts b := by
  simp [countServerStarts, List.filter_append]

theorem mem_dictInsert_self {α : Type} (k : String) (v : α) (d : List (String × α)) :
    (k, v) ∈ dictInsert k v d := by
  induction d with
  | nil => simp [dictInsert]
  | cons p rest ih =>
      by_cases h : k = p.1
      · simp [dictInsert, h]
      · simp only [dictInsert, if_neg h]
        exact List.mem_cons_of_mem p ih

/-- The VtOrderReq that sendOrder builds when the contract is found and
both optional arguments are omitted: priceType defaults to limit and
offset to open. -/
def sendOrderReqOf (vtSymbol direction : String) (price volume : Int)
    (c : VtContract) : VtOrderReq :=
  { vtSymbol := vtSymbol, symbol := c.symbol, exchange := c.exchange,
    direction := direction, offset := OFFSET_OPEN, price := price, volume := volume,
    priceType := PRICETYPE_LIMITPRICE }

/-! Claim theorems. -/

/-- Claim C8: stopAlgo on an active name removes exactly that name from the
active-name index and invokes the stopped instance's stop hook; a second
stopAlgo with the now-absent name is a no-op rather than an error; and
stopAlgo leaves the order-ownership index and the symbol-subscription
index unchanged, so entries owned by the stopped instance persist. -/
theorem stopAlgo_removes_and_is_noop_when_absent (st : EngineState) (name : String)
    (algo : AlgoInstance) (hnd : (st.algoDict.map Prod.fst).Nodup)
    (h : dictGet name st.algoDict = some algo) :
    stopAlgo st name =
      ({ st with algoDict := dictErase name st.algoDict }, [Effect.stopAlgoHook algo]) ∧
    dictGet name (stopAlgo st name).1.algoDict = none ∧
    stopAlgo (stopAlgo st name).1 name = ((stopAlgo st name).1, []) ∧
    (stopAlgo st name).1.orderAlgoDict = st.orderAlgoDict ∧
    (stopAlgo st name).1.symbolAlgoDict = st.symbolAlgoDict := by
  have h1 := stopAlgo_present h
  have h2 : dictGet name (stopAlgo st name).1.algoDict = none := by
    rw [h1]
    exact dictGet_erase_self hnd
  exact ⟨h1, h2, stopAlgo_absent h2, by rw [h1], by rw [h1]⟩

/-- Witness for claim C8 at a concrete input: stopping the active name
Twap_0 on a two-algorithm engine. -/
theorem stopAlgo_removes_and_is_noop_when_absent_witness :
    stopAlgo twoAlgoState "Twap_0" =
      ({ twoAlgoState with algoDict := dictErase "Twap_0" twoAlgoState.algoDict },
       [Effect.stopAlgoHook algoA]) ∧
    dictGet "Twap_0" (stopAlgo twoAlgoState "Twap_0").1.algoDict = none ∧
    stopAlgo (stopAlgo twoAlgoState "Twap_0").1 "Twap_0" =
      ((stopAlgo twoAlgoState "Twap_0").1, []) ∧
    (stopAlgo twoAlgoState "Twap_0").1.orderAlgoDict = twoAlgoState.orderAlgoDict ∧
    (stopAlgo twoAlgoState "Twap_0").1.symbolAlgoDict = twoAlgoState.symbolAlgoDict :=
  stopAlgo_removes_and_is_noop_when_absent twoAlgoState "Twap_0" algoA
    (by decide) (by decide)

/-- Claim C10: deleteAlgoSetting on a setting whose settingName is not in
the in-memory map raises KeyError before touching the backend or
publishing any event (state and effect trace unchanged), unlike stopAlgo,
for which an absent name is a silent no-op. -/
theorem deleteAlgoSetting_absent_raises (st : EngineState) (setting : PyDict) (name : String)
    (hname : dictGet "settingName" setting = some name)
    (habs : dictGet name st.settingDict = none) :
    deleteAlgoSetting st setting = (st, [], Except.error (PyErr.keyError name)) ∧
    ∀ st' : EngineState, dictGet name st'.algoDict = none → stopAlgo st' name = (st', []) := by
  constructor
  · simp only [deleteAlgoSetting, hname, habs]
  · intro st' h'
    exact stopAlgo_absent h'

/-- Witness for claim C10 at a concrete input: deleting the setting S1
from an engine whose setting map does not contain it. -/
theorem deleteAlgoSetting_absent_raises_witness :
    deleteAlgoSetting freshState [("settingName", "S1")] =
      (freshState, [], Except.error (PyErr.keyError "S1")) ∧
    stopAlgo freshState "S1" = (freshState, []) :=
  ⟨(deleteAlgoSetting_absent_raises freshState [("settingName", "S1")] "S1" rfl rfl).1,
   (deleteAlgoSetting_absent_raises freshState [("settingName", "S1")] "S1" rfl rfl).2
     freshState rfl⟩

/-- Claim C9: startRpc is idempotent: on an engine without an RPC server
the call creates and starts the server (exactly one server-start effect
and the server slot becomes occupied); any call while a server exists
returns without state change or effects; hence any non-empty sequence of
startRpc calls from a serverless engine starts exactly one server. -/
theorem startRpc_idempotent (st : EngineState) (r p : Nat) (rest : List (Nat × Nat))
    (h : st.rpcServer = none) :
    (startRpc st r p).1.rpcServer = some (r, p) ∧
    countServerStarts (startRpc st r p).2 = 1 ∧
    (∀ (st' : EngineState) (s : Nat × Nat) (r' p' : Nat), st'.rpcServer = some s →
      startRpc st' r' p' = (st', [])) ∧
    countServerStarts (runStartRpcSeq ((r, p) :: rest) st).2 = 1 := by
  have hfirst : startRpc st r p =
      ({ st with rpcServer := some (r, p) },
       [Effect.rpcServerStart r p,
        Effect.writeLog ("算法交易RPC服务启动成功，REP端口:" ++ toString r ++
                         "，PUB端口:" ++ toString p)]) := by
    unfold startRpc
    rw [h]
  have hsome : (startRpc st r p).1.rpcServer = some (r, p) := by rw [hfirst]
  refine ⟨hsome, ?_, fun st' s r' p' h' => startRpc_when_some r' p' h', ?_⟩
  · rw [hfirst]
    rw [countServerStarts_start, countServerStarts_writeLog]
    rfl
  · have hseq := runStartRpcSeq_when_some rest (startRpc st r p).1 hsome
    simp only [runStartRpcSeq, hseq]
    rw [hfirst]
    simp only [List.append_nil]
    rw [countServerStarts_start, countServerStarts_writeLog]
    rfl

/-- Claim C1: for a setting whose templateName is registered in the fixed
template table, addAlgo constructs an instance, inserts it into the
active-name index under its algoName, and returns that algoName; the name
then maps to the instance in the active set and the instance receives
routed timer events.  For a setting whose templateName is unregistered,
addAlgo raises KeyError, which propagates to the caller. -/
theorem addAlgo_registered_or_fails (st : EngineState) (setting : PyDict) (tn : String)
    (htn : dictGet "templateName" setting = some tn) :
    (tn ∈ ALGO_DICT →
      addAlgo st setting =
        ({ st with algoDict := dictInsert (algoClassNew tn st.algoCount).algoName
                      (algoClassNew tn st.algoCount) st.algoDict,
                   algoCount := st.algoCount + 1 },
         [], Except.ok (algoClassNew tn st.algoCount).algoName) ∧
      dictGet (algoClassNew tn st.algoCount).algoName (addAlgo st setting).1.algoDict =
        some (algoClassNew tn st.algoCount) ∧
      Effect.updateTimer (algoClassNew tn st.algoCount) ∈
        (processTimerEvent (addAlgo st setting).1).2) ∧
    (tn ∉ ALGO_DICT → addAlgo st setting = (st, [], Except.error (PyErr.keyError tn))) := by
  constructor
  · intro hmem
    have h1 : addAlgo st setting =
        ({ st with algoDict := dictInsert (algoClassNew tn st.algoCount).algoName
                      (algoClassNew tn st.algoCount) st.algoDict,
                   algoCount := st.algoCount + 1 },
         [], Except.ok (algoClassNew tn st.algoCount).algoName) := by
      simp only [addAlgo, htn, if_pos hmem]
    refine ⟨h1, ?_, ?_⟩
    · rw [h1]
      exact dictGet_insert _ _ _
    · rw [h1]
      simp only [processTimerEvent]
      exact List.mem_map_of_mem _ (mem_dictInsert_self _ _ _)
  · intro hmem
    simp only [addAlgo, htn, if_neg hmem]

/-- Witness for claim C1 at concrete inputs: adding a Twap setting to the
fresh engine succeeds and registers the instance; adding a setting with
the unregistered template Foo raises KeyError. -/
theorem addAlgo_registered_or_fails_witness :
    addAlgo freshState [("templateName", "Twap")] =
      ({ freshState with algoDict := [("Twap_0", algoA)], algoCount := 1 },
       [], Except.ok "Twap_0") ∧
    dictGet "Twap_0" (addAlgo freshState [("templateName", "Twap")]).1.algoDict = some algoA ∧
    Effect.updateTimer algoA ∈
      (processTimerEvent (addAlgo freshState [("templateName", "Twap")]).1).2 ∧
    addAlgo freshState [("templateName", "Foo")] =
      (freshState, [], Except.error (PyErr.keyError "Foo")) := by
  have hpos := (addAlgo_registered_or_fails freshState [("templateName", "Twap")] "Twap"
    rfl).1 (by decide)
  have hneg := (addAlgo_registered_or_fails freshState [("templateName", "Foo")] "Foo"
    rfl).2 (by decide)
  exact ⟨hpos.1, hpos.2.1, hpos.2.2, hneg⟩

theorem stopAllGo_size_mismatch (n0 : Nat) (keys : List String) (st : EngineState)
    (effs : List Effect) (h : st.algoDict.length ≠ n0) :
    stopAllGo n0 keys st effs =
      (st, effs, Except.error (PyErr.runtimeError "dictionary changed size during iteration")) := by
  cases keys <;> simp [stopAllGo, h]

/-- General behaviour behind claim C2: on any engine with at least one
active algorithm, stopAll stops only the first instance and then raises
RuntimeError, because the Python 3 keys view is iterated while stopAlgo
deletes from the dict; the remaining instances stay active and their stop
hooks never run. -/
theorem stopAll_raises_when_nonempty (st : EngineState) (k0 : String) (v0 : AlgoInstance)
    (rest : List (String × AlgoInstance)) (h : st.algoDict = (k0, v0) :: rest) :
    stopAll st =
      ({ st with algoDict := rest }, [Effect.stopAlgoHook v0],
       Except.error (PyErr.runtimeError "dictionary changed size during iteration")) := by
  have hget : dictGet k0 st.algoDict = some v0 := by
    rw [h]
    simp [dictGet]
  have hstop : stopAlgo st k0 = ({ st with algoDict := rest }, [Effect.stopAlgoHook v0]) := by
    rw [stopAlgo_present hget, h]
    simp [dictErase]
  have hlen : st.algoDict.length = rest.length + 1 := by rw [h]; rfl
  unfold stopAll
  rw [h]
  simp only [List.map_cons, List.length_cons, stopAllGo]
  rw [if_neg (by rw [hlen]; exact fun hx => hx rfl)]
  simp only [hstop]
  rw [stopAllGo_size_mismatch _ _ _ _ (by show rest.length ≠ rest.length + 1; omega)]
  rfl

/-- Claim C2, evaluated on the code at a failing input: stopAll on an
engine with two active algorithms is claimed to empty the active set and
invoke both stop hooks by snapshotting the name set; instead the code
iterates the live keys view, stops only the first instance, and raises
RuntimeError, leaving the second instance active and its stop hook never
invoked. -/
theorem stopAll_two_algos_raises :
    stopAll twoAlgoState =
      ({ twoAlgoState with algoDict := [("Twap_1", algoB)] },
       [Effect.stopAlgoHook algoA],
       Except.error (PyErr.runtimeError "dictionary changed size during iteration")) :=
  stopAll_raises_when_nonempty twoAlgoState "Twap_0" algoA [("Twap_1", algoB)] rfl

/-- General behaviour behind claim C5: sendOrder with a failed contract
lookup emits the failure log and submits nothing, but instead of
completing it raises AttributeError when the request construction
dereferences the missing contract. -/
theorem sendOrder_no_contract (env : MainEngine) (st : EngineState)
    (algo : AlgoInstance) (sym direction : String) (price volume : Int)
    (priceType offset : Option String) (h : env.getContract sym = none) :
    sendOrder env st algo sym direction price volume priceType offset =
      (st, [Effect.writeLog (algo.algoName ++ "委托下单失败，找不到合约：" ++ sym)],
       Except.error (PyErr.attributeError "NoneType object has no attribute symbol")) := by
  simp only [sendOrder, h]

/-- Claim C5, evaluated on the code at a failing input: sendOrder for a
symbol with no contract logs the failure and never reaches the
order-submission collaborator, but the call does not complete without
raising: it raises AttributeError (the source lacks the early return that
subscribe and cancelOrder have), leaving the order-ownership index
unchanged. -/
theorem sendOrder_missing_contract_raises :
    sendOrder demoMain freshState algoA "ag1912" DIRECTION_LONG 100 5 none none =
      (freshState,
       [Effect.writeLog ("Twap_0" ++ "委托下单失败，找不到合约：" ++ "ag1912")],
       Except.error (PyErr.attributeError "NoneType object has no attribute symbol")) :=
  sendOrder_no_contract demoMain freshState algoA "ag1912" DIRECTION_LONG 100 5 none none rfl

/-- Claim C3: for a symbol with a known contract, when two distinct
instances subscribe to the same symbol, the first call issues exactly one
upstream subscription request and the second call issues none; a
subsequent tick for that symbol is then delivered to both instances. -/
theorem subscribe_dedup (env : MainEngine) (st : EngineState) (a1 a2 : AlgoInstance)
    (sym : String) (c : VtContract) (tick : TickData)
    (hc : env.getContract sym = some c)
    (hfresh : dictGet sym st.symbolAlgoDict = none)
    (hne : a1 ≠ a2) (htick : tick.vtSymbol = sym) :
    (subscribe env st a1 sym).2 = [Effect.mainSubscribe c.symbol c.exchange c.gatewayName] ∧
    (subscribe env (subscribe env st a1 sym).1 a2 sym).2 = [] ∧
    (processTickEvent (subscribe env (subscribe env st a1 sym).1 a2 sym).1 tick).2 =
      [Effect.updateTick a1 tick, Effect.updateTick a2 tick] := by
  have h1 : subscribe env st a1 sym =
      ({ st with symbolAlgoDict := dictInsert sym [a1] st.symbolAlgoDict },
       [Effect.mainSubscribe c.symbol c.exchange c.gatewayName]) := by
    simp only [subscribe, hc, hfresh]
    simp [setAdd]
  have hget1 : dictGet sym (subscribe env st a1 sym).1.symbolAlgoDict = some [a1] := by
    rw [h1]
    exact dictGet_insert _ _ _
  have hmem : a2 ∉ [a1] := by simp [Ne.symm hne]
  have h2 : ∀ st1 : EngineState, dictGet sym st1.symbolAlgoDict = some [a1] →
      subscribe env st1 a2 sym =
        ({ st1 with symbolAlgoDict := dictInsert sym [a1, a2] st1.symbolAlgoDict }, []) := by
    intro st1 hg
    simp only [subscribe, hc, hg]
    simp [setAdd, hmem, Ne.symm hne]
  have hget2 : dictGet sym
      (subscribe env (subscribe env st a1 sym).1 a2 sym).1.symbolAlgoDict = some [a1, a2] := by
    rw [h2 _ hget1]
    exact dictGet_insert _ _ _
  refine ⟨by rw [h1], by rw [h2 _ hget1], ?_⟩
  simp only [processTickEvent, htick, hget2]
  rfl

/-- Witness for claim C3 at concrete inputs: two distinct instances
subscribing to rb8888 on the fresh engine, then a tick for rb8888. -/
theorem subscribe_dedup_witness :
    (subscribe demoMain freshState algoA "rb8888").2 =
      [Effect.mainSubscribe "rb8888" "SHFE" "CTP"] ∧
    (subscribe demoMain (subscribe demoMain freshState algoA "rb8888").1 algoB "rb8888").2 =
      [] ∧
    (processTickEvent
      (subscribe demoMain (subscribe demoMain freshState algoA "rb8888").1 algoB "rb8888").1
      { vtSymbol := "rb8888" }).2 =
      [Effect.updateTick algoA { vtSymbol := "rb8888" },
       Effect.updateTick algoB { vtSymbol := "rb8888" }] :=
  subscribe_dedup demoMain freshState algoA algoB "rb8888"
    { symbol := "rb8888", exchange := "SHFE", gatewayName := "CTP" }
    { vtSymbol := "rb8888" } rfl rfl (by decide) rfl

/-- Claim C4: an order placed through sendOrder has its returned order id
recorded as owned by the placing instance in the state sendOrder returns,
so a subsequent order or trade event carrying that id is delivered to the
originating instance and to no other; an order or trade event whose id has
no recorded owner is silently dropped, with no delivery and no error. -/
theorem sendOrder_ownership (env : MainEngine) (st : EngineState) (algo : AlgoInstance)
    (sym direction : String) (price volume : Int) (c : VtContract)
    (hc : env.getContract sym = some c) :
    ∃ (oid : String) (st' : EngineState),
      (sendOrder env st algo sym direction price volume none none).2.2 = Except.ok oid ∧
      (sendOrder env st algo sym direction price volume none none).1 = st' ∧
      dictGet oid st'.orderAlgoDict = some algo ∧
      (∀ trade : TradeData, trade.vtOrderID = oid →
        processTradeEvent st' trade = (st', [Effect.updateTrade algo trade])) ∧
      (∀ order : OrderData, order.vtOrderID = oid →
        processOrderEvent st' order = (st', [Effect.updateOrder algo order])) ∧
      (∀ (st'' : EngineState) (trade : TradeData),
        dictGet trade.vtOrderID st''.orderAlgoDict = none →
        processTradeEvent st'' trade = (st'', [])) ∧
      (∀ (st'' : EngineState) (order : OrderData),
        dictGet order.vtOrderID st''.orderAlgoDict = none →
        processOrderEvent st'' order = (st'', [])) := by
  have hsend : sendOrder env st algo sym direction price volume none none =
      ({ st with orderAlgoDict :=
           dictInsert (env.sendOrderId (sendOrderReqOf sym direction price volume c)
               c.gatewayName) algo st.orderAlgoDict },
       [Effect.mainSendOrder (sendOrderReqOf sym direction price volume c) c.gatewayName],
       Except.ok (env.sendOrderId (sendOrderReqOf sym direction price volume c)
           c.gatewayName)) := by
    simp only [sendOrder, hc, strArgOrDefault, sendOrderReqOf]
  refine ⟨env.sendOrderId (sendOrderReqOf sym direction price volume c) c.gatewayName,
          (sendOrder env st algo sym direction price volume none none).1,
          by rw [hsend], rfl, ?_, ?_, ?_, ?_, ?_⟩
  · rw [hsend]
    exact dictGet_insert _ _ _
  · intro trade htr
    have : dictGet trade.vtOrderID
        (sendOrder env st algo sym direction price volume none none).1.orderAlgoDict =
        some algo := by
      rw [htr, hsend]
      exact dictGet_insert _ _ _
    simp only [processTradeEvent, this]
  · intro order hor
    have : dictGet order.vtOrderID
        (sendOrder env st algo sym direction price volume none none).1.orderAlgoDict =
        some algo := by
      rw [hor, hsend]
      exact dictGet_insert _ _ _
    simp only [processOrderEvent, this]
  · intro st'' trade hnone
    simp only [processTradeEvent, hnone]
  · intro st'' order hnone
    simp only [processOrderEvent, hnone]

/-- Witness for claim C4 at concrete inputs: an order placed on rb8888 by
a concrete instance through the concrete main-engine collaborator. -/
theorem sendOrder_ownership_witness :
    ∃ (oid : String) (st' : EngineState),
      (sendOrder demoMain freshState algoA "rb8888" DIRECTION_LONG 100 5 none none).2.2 =
        Except.ok oid ∧
      (sendOrder demoMain freshState algoA "rb8888" DIRECTION_LONG 100 5 none none).1 = st' ∧
      dictGet oid st'.orderAlgoDict = some algoA ∧
      (∀ trade : TradeData, trade.vtOrderID = oid →
        processTradeEvent st' trade = (st', [Effect.updateTrade algoA trade])) ∧
      (∀ order : OrderData, order.vtOrderID = oid →
        processOrderEvent st' order = (st', [Effect.updateOrder algoA order])) ∧
      (∀ (st'' : EngineState) (trade : TradeData),
        dictGet trade.vtOrderID st''.orderAlgoDict = none →
        processTradeEvent st'' trade = (st'', [])) ∧
      (∀ (st'' : EngineState) (order : OrderData),
        dictGet order.vtOrderID st''.orderAlgoDict = none →
        processOrderEvent st'' order = (st'', [])) :=
  sendOrder_ownership demoMain freshState algoA "rb8888" DIRECTION_LONG 100 5
    { symbol := "rb8888", exchange := "SHFE", gatewayName := "CTP" } rfl

theorem loadSettings_fixed (m : List (String × PyDict))
    (hkeys : ∀ p ∈ m, dictGet "settingName" p.2 = some p.1)
    (hnd : (m.map Prod.fst).Nodup) :
    ∀ l : List PyDict, (∀ s ∈ l, ∃ k, (k, s) ∈ m) → (loadSettings l m).1 = m := by
  intro l
  induction l with
  | nil => intro _; rfl
  | cons s rest ih =>
      intro hsub
      obtain ⟨k, hk⟩ := hsub s (List.mem_cons_self s rest)
      have h1 : dictGet "settingName" s = some k := hkeys (k, s) hk
      have hmut : dictInsert "settingName" k s = s := dictInsert_of_get_eq h1
      have hins : dictInsert k s m = m :=
        dictInsert_of_get_eq (dictGet_of_mem_nodup hnd hk)
      have hrest : ∀ s' ∈ rest, ∃ k', (k', s') ∈ m :=
        fun s' hs' => hsub s' (List.mem_cons_of_mem s hs')
      simp only [loadSettings, h1, putSettingEvent]
      rw [hmut, hins]
      exact ih hrest

/-- Claim C6: for an in-memory setting map whose entries are keyed by
their own settingName field (and whose keys are unique, as Python dicts
guarantee), saveAlgoSettingToFile followed by loadAlgoSettingFromFile
reproduces the identical in-memory setting map. -/
theorem save_then_load_roundtrip (st : EngineState)
    (hkeys : ∀ p ∈ st.settingDict, dictGet "settingName" p.2 = some p.1)
    (hnd : (st.settingDict.map Prod.fst).Nodup) :
    (loadAlgoSettingFromFile (saveAlgoSettingToFile st).1).1.settingDict = st.settingDict := by
  have hsub : ∀ s ∈ st.settingDict.map Prod.snd, ∃ k, (k, s) ∈ st.settingDict := by
    intro s hs
    obtain ⟨p, hp, hps⟩ := List.mem_map.1 hs
    refine ⟨p.1, ?_⟩
    rw [← hps]
    exact hp
  have hload := loadSettings_fixed st.settingDict hkeys hnd (st.settingDict.map Prod.snd) hsub
  simp only [saveAlgoSettingToFile, loadAlgoSettingFromFile]
  exact hload

/-- A concrete two-entry setting map whose entries are keyed by their own
settingName field. -/
def demoSettings : List (String × PyDict) :=
  [("S1", [("settingName", "S1"), ("templateName", "Twap")]),
   ("S2", [("settingName", "S2"), ("templateName", "Iceberg")])]

/-- Witness for claim C6 at a concrete input: the two-entry setting map
survives a save/load round trip unchanged. -/
theorem save_then_load_roundtrip_witness :
    (loadAlgoSettingFromFile
      (saveAlgoSettingToFile { freshState with settingDict := demoSettings }).1).1.settingDict =
      demoSettings :=
  save_then_load_roundtrip { freshState with settingDict := demoSettings }
    (by decide) (by decide)

/-- Claim C7: deleting a setting that is present removes it from the
in-memory map (a lookup of its name then fails) and from the active
backend — a whole-file rewrite of the remaining settings on the file
backend, or a document-store delete keyed by settingName on the mongodb
backend — and then publishes an EVENT_ALGO_SETTING event (the ordinary
setting-changed kind, not a separate one) whose payload carries only the
settingName field, the empty payload being the deletion signal; no
remaining persisted entry carries the deleted name. -/
theorem deleteAlgoSetting_present (st : EngineState) (setting : PyDict) (name : String)
    (v : PyDict) (hname : dictGet "settingName" setting = some name)
    (hpres : dictGet name st.settingDict = some v)
    (hkeys : ∀ p ∈ st.settingDict, dictGet "settingName" p.2 = some p.1)
    (hnd : (st.settingDict.map Prod.fst).Nodup) :
    (deleteAlgoSetting st setting).1.settingDict = dictErase name st.settingDict ∧
    dictGet name (deleteAlgoSetting st setting).1.settingDict = none ∧
    (deleteAlgoSetting st setting).2.1 =
      (if st.useMongodb then
        [Effect.dbDelete ALGOTRADING_DB_NAME SETTING_COLLECTION_NAME name]
      else [Effect.fileWrite ((dictErase name st.settingDict).map Prod.snd)]) ++
      [Effect.putEvent EVENT_ALGO_SETTING [("settingName", name)]] ∧
    (deleteAlgoSetting st setting).2.2 = Except.ok () ∧
    (∀ s ∈ (dictErase name st.settingDict).map Prod.snd,
      dictGet "settingName" s ≠ some name) := by
  have hlast : ∀ s ∈ (dictErase name st.settingDict).map Prod.snd,
      dictGet "settingName" s ≠ some name := by
    intro s hs
    obtain ⟨p, hp, hps⟩ := List.mem_map.1 hs
    have h1 : dictGet "settingName" p.2 = some p.1 := hkeys p (mem_of_mem_dictErase hp)
    have h2 : p.1 ≠ name := fst_ne_of_mem_dictErase hnd hp
    rw [← hps, h1]
    intro hcontra
    exact h2 (Option.some.inj hcontra)
  have hmain : (deleteAlgoSetting st setting).1.settingDict = dictErase name st.settingDict ∧
      (deleteAlgoSetting st setting).2.1 =
        (if st.useMongodb then
          [Effect.dbDelete ALGOTRADING_DB_NAME SETTING_COLLECTION_NAME name]
        else [Effect.fileWrite ((dictErase name st.settingDict).map Prod.snd)]) ++
        [Effect.putEvent EVENT_ALGO_SETTING [("settingName", name)]] ∧
      (deleteAlgoSetting st setting).2.2 = Except.ok () := by
    cases hb : st.useMongodb
    · simp [deleteAlgoSetting, hname, hpres, hb, saveAlgoSettingToFile,
        putSettingEvent, dictInsert]
    · simp [deleteAlgoSetting, hname, hpres, hb, putSettingEvent, dictInsert]
  refine ⟨hmain.1, ?_, hmain.2.1, hmain.2.2, hlast⟩
  rw [hmain.1]
  exact dictGet_erase_self hnd

/-- Witness for claim C7 at a concrete input: deleting the setting S1 on
the file backend removes it from the map, rewrites the file with only S2,
and publishes the empty-payload setting event. -/
theorem deleteAlgoSetting_present_witness :
    (deleteAlgoSetting { freshState with settingDict := demoSettings }
      [("settingName", "S1")]).1.settingDict = dictErase "S1" demoSettings ∧
    dictGet "S1" (deleteAlgoSetting { freshState with settingDict := demoSettings }
      [("settingName", "S1")]).1.settingDict = none ∧
    (deleteAlgoSetting { freshState with settingDict := demoSettings }
      [("settingName", "S1")]).2.1 =
      (if ({ freshState with settingDict := demoSettings } : EngineState).useMongodb then
        [Effect.dbDelete ALGOTRADING_DB_NAME SETTING_COLLECTION_NAME "S1"]
      else [Effect.fileWrite ((dictErase "S1" demoSettings).map Prod.snd)]) ++
      [Effect.putEvent EVENT_ALGO_SETTING [("settingName", "S1")]] ∧
    (deleteAlgoSetting { freshState with settingDict := demoSettings }
      [("settingName", "S1")]).2.2 = Except.ok () ∧
    (∀ s ∈ (dictErase "S1" demoSettings).map Prod.snd,
      dictGet "settingName" s ≠ some "S1") :=
  deleteAlgoSetting_present { freshState with settingDict := demoSettings }
    [("settingName", "S1")] "S1" [("settingName", "S1"), ("templateName", "Twap")]
    rfl rfl (by decide) (by decide)

/-- Witness for claim C9 at a concrete input: a first startRpc on the
fresh engine followed by a second call. -/
theorem startRpc_idempotent_witness :
    (startRpc freshState 8001 8002).1.rpcServer = some (8001, 8002) ∧
    countServerStarts (startRpc freshState 8001 8002).2 = 1 ∧
    startRpc (startRpc freshState 8001 8002).1 9001 9002 =
      ((startRpc freshState 8001 8002).1, []) ∧
    countServerStarts (runStartRpcSeq [(8001, 8002), (9001, 9002)] freshState).2 = 1 := by
  have h := startRpc_idempotent freshState 8001 8002 [(9001, 9002)] rfl
  exact ⟨h.1, h.2.1, h.2.2.1 (startRpc freshState 8001 8002).1 (8001, 8002) 9001 9002 h.1,
         h.2.2.2⟩

end AlgoTrading
